import Mathlib

/-!
Verification development for the rsadv IPv6 Router Advertisement daemon.

The definitions below are a shallow embedding of the Rust sources:
  - rsadv_server/src/ndp.rs      (NDP wire codec)
  - rsadv_server/src/main.rs     (interval clamping, RA scheduler, reaper)
  - rsadv_server/src/control.rs  (control connection handler)
  - rsadv_control/src/lib.rs     (control protocol codec)

Conventions:
  - Byte buffers are `List Nat` (each element a byte value).
  - Rust `std::time::Duration` is modelled as a total nanosecond count
    (the (secs, nanos < 10^9) pair of the Rust struct normalises to it).
  - Machine-integer truncation (`as u16`, `as u32`, u8 wrapping arithmetic)
    is written with explicit `% 2^w`.
  - Fallible decoding returns `Except DecodeError`.  A Rust panic
    (the `todo!()` arm for option code 4 in IcmpOption::decode) is modelled
    by an `Option` wrapper: `none` means the computation panics.
-/

namespace Rsadv

/-- Rust std::time::Duration, as its total count of nanoseconds. -/
structure Duration where
  nanos : Nat
deriving DecidableEq

/-- Duration::from_secs. -/
def Duration.fromSecs (n : Nat) : Duration := ⟨n * 1000000000⟩

/-- Duration::as_secs. -/
def Duration.asSecs (d : Duration) : Nat := d.nanos / 1000000000

/-- Duration * u32 (std multiplies the nanosecond count). -/
def Duration.mulU32 (d : Duration) (k : Nat) : Duration := ⟨d.nanos * k⟩

/-- Duration / u32, following the std formula: secs/k, plus the carried
remainder converted to nanoseconds, plus nanos/k. -/
def Duration.divU32 (d : Duration) (k : Nat) : Duration :=
  let secs := d.nanos / 1000000000
  let sub := d.nanos % 1000000000
  ⟨secs / k * 1000000000 + (sub / k + secs % k * 1000000000 / k)⟩

deriving instance DecidableEq for Except

/-- ndp.rs Error. -/
inductive DecodeError where
  | Eof
  | UnknownOptionCode
  | UnknownIcmpType
deriving DecidableEq

/-- bytes::BufMut::put_u16 (big endian). -/
def encodeU16 (n : Nat) : List Nat := [n / 256 % 256, n % 256]

/-- bytes::BufMut::put_u32 (big endian). -/
def encodeU32 (n : Nat) : List Nat :=
  [n / 16777216 % 256, n / 65536 % 256, n / 256 % 256, n % 256]

/-- u8::decode in ndp.rs: Eof if empty, else consume one byte. -/
def decodeU8 : List Nat → Except DecodeError Nat × List Nat
  | [] => (.error .Eof, [])
  | b :: rest => (.ok b, rest)

/-- u16::decode in ndp.rs: checks remaining < 2 before get_u16 (big endian). -/
def decodeU16 (buf : List Nat) : Except DecodeError Nat × List Nat :=
  match buf with
  | b1 :: b2 :: rest => (.ok (b1 * 256 + b2), rest)
  | _ => (.error .Eof, buf)

/-- u32::decode in ndp.rs: checks remaining < 4 before get_u32 (big endian). -/
def decodeU32 (buf : List Nat) : Except DecodeError Nat × List Nat :=
  match buf with
  | b1 :: b2 :: b3 :: b4 :: rest =>
    (.ok (b1 * 16777216 + b2 * 65536 + b3 * 256 + b4), rest)
  | _ => (.error .Eof, buf)

/-- A run of k byte reads, each via u8::decode with early return on Eof
(the `for _ in 0..k { u8::decode(&mut buf)?; }` / byte-array fill pattern). -/
def readBytes : Nat → List Nat → Except DecodeError (List Nat) × List Nat
  | 0, buf => (.ok [], buf)
  | k + 1, buf =>
    match decodeU8 buf with
    | (.error e, rest) => (.error e, rest)
    | (.ok b, rest) =>
      match readBytes k rest with
      | (.error e, rest') => (.error e, rest')
      | (.ok bs, rest') => (.ok (b :: bs), rest')

/-- ndp.rs LinkLayerAddress: a 6-byte MAC. -/
structure LinkLayerAddress where
  octets : List Nat
deriving DecidableEq

/-- LinkLayerAddress::encode. -/
def LinkLayerAddress.encode (a : LinkLayerAddress) : List Nat := a.octets

/-- LinkLayerAddress::decode: reads 6 bytes. -/
def LinkLayerAddress.decode (buf : List Nat) :
    Except DecodeError LinkLayerAddress × List Nat :=
  match readBytes 6 buf with
  | (.error e, rest) => (.error e, rest)
  | (.ok bs, rest) => (.ok ⟨bs⟩, rest)

/-- ndp.rs PrefixInformation.  The Ipv6Addr field is its 16 octets. -/
structure PrefixInformation where
  prefix_length : Nat
  on_link : Bool
  autonomous : Bool
  valid_lifetime : Duration
  preferred_lifetime : Duration
  prefixAddr : List Nat
deriving DecidableEq

/-- ndp.rs RecursiveDnsServer. -/
structure RecursiveDnsServer where
  lifetime : Duration
  addrs : List (List Nat)
deriving DecidableEq

/-- ndp.rs IcmpOption. -/
inductive IcmpOption where
  | SourceLinkLayerAddress (addr : LinkLayerAddress)
  | TargetLinkLayerAddress (addr : LinkLayerAddress)
  | PrefixInformation (opt : PrefixInformation)
  | Mtu (mtu : Nat)
  | RecursiveDnsServer (opt : RecursiveDnsServer)
deriving DecidableEq

/-- ndp.rs OptionCode. -/
inductive OptionCode where
  | SourceLinkLayerAddress
  | TargetLinkLayerAddress
  | PrefixInformation
  | RedirectedHeader
  | Mtu
  | RecursiveDnsServer
deriving DecidableEq

/-- OptionCode::from_u8. -/
def OptionCode.from_u8 (code : Nat) : Option OptionCode :=
  match code with
  | 1 => some .SourceLinkLayerAddress
  | 2 => some .TargetLinkLayerAddress
  | 3 => some .PrefixInformation
  | 4 => some .RedirectedHeader
  | 5 => some .Mtu
  | 25 => some .RecursiveDnsServer
  | _ => none

/-- OptionCode::to_u8. -/
def OptionCode.to_u8 : OptionCode → Nat
  | .SourceLinkLayerAddress => 1
  | .TargetLinkLayerAddress => 2
  | .PrefixInformation => 3
  | .RedirectedHeader => 4
  | .Mtu => 5
  | .RecursiveDnsServer => 25

/-- IcmpOption::encode.  The `as u16`/`as u32` casts on `Duration::as_secs`
are truncations, written `% 2^w`.  The RecursiveDnsServer length byte is the
u8 expression `1 + addrs.len() as u8 * 2`, modelled with wrapping (release)
semantics. -/
def IcmpOption.encode : IcmpOption → List Nat
  | .SourceLinkLayerAddress a => 1 :: 1 :: a.octets
  | .TargetLinkLayerAddress a => 2 :: 1 :: a.octets
  | .PrefixInformation o =>
    3 :: 4 :: o.prefix_length ::
      ((if o.on_link then 128 else 0) + (if o.autonomous then 64 else 0)) ::
      (encodeU32 (o.valid_lifetime.asSecs % 4294967296) ++
       encodeU32 (o.preferred_lifetime.asSecs % 4294967296) ++
       encodeU32 0 ++ o.prefixAddr)
  | .Mtu mtu => 5 :: 1 :: 0 :: 0 :: encodeU32 mtu
  | .RecursiveDnsServer o =>
    25 :: ((1 + o.addrs.length % 256 * 2) % 256) :: 0 :: 0 ::
      (encodeU32 (o.lifetime.asSecs % 4294967296) ++ o.addrs.flatten)

/-- The RDNSS address loop in IcmpOption::decode: num_addrs 16-byte reads. -/
def readAddrs : Nat → List Nat → Except DecodeError (List (List Nat)) × List Nat
  | 0, buf => (.ok [], buf)
  | k + 1, buf =>
    match readBytes 16 buf with
    | (.error e, rest) => (.error e, rest)
    | (.ok a, rest) =>
      match readAddrs k rest with
      | (.error e, rest') => (.error e, rest')
      | (.ok as_, rest') => (.ok (a :: as_), rest')

/-- IcmpOption::decode.  `none` models the `todo!()` panic of the
RedirectedHeader arm.  The unknown-code arm skips
`len.saturating_mul(8).saturating_sub(2)` bytes and fails with
UnknownOptionCode. -/
def IcmpOption.decode (buf : List Nat) :
    Option (Except DecodeError IcmpOption × List Nat) :=
  match decodeU8 buf with
  | (.error e, rest) => some (.error e, rest)
  | (.ok code, buf1) =>
  match decodeU8 buf1 with
  | (.error e, rest) => some (.error e, rest)
  | (.ok len, buf2) =>
  match OptionCode.from_u8 code with
  | some .SourceLinkLayerAddress =>
    match LinkLayerAddress.decode buf2 with
    | (.error e, rest) => some (.error e, rest)
    | (.ok a, rest) => some (.ok (.SourceLinkLayerAddress a), rest)
  | some .TargetLinkLayerAddress =>
    match LinkLayerAddress.decode buf2 with
    | (.error e, rest) => some (.error e, rest)
    | (.ok a, rest) => some (.ok (.TargetLinkLayerAddress a), rest)
  | some .PrefixInformation =>
    match decodeU8 buf2 with
    | (.error e, rest) => some (.error e, rest)
    | (.ok prefix_length, buf3) =>
    match decodeU8 buf3 with
    | (.error e, rest) => some (.error e, rest)
    | (.ok flags, buf4) =>
    match decodeU32 buf4 with
    | (.error e, rest) => some (.error e, rest)
    | (.ok valid_lifetime, buf5) =>
    match decodeU32 buf5 with
    | (.error e, rest) => some (.error e, rest)
    | (.ok preferred_lifetime, buf6) =>
    match decodeU32 buf6 with
    | (.error e, rest) => some (.error e, rest)
    | (.ok _resv, buf7) =>
    match readBytes 16 buf7 with
    | (.error e, rest) => some (.error e, rest)
    | (.ok prefixBytes, rest) =>
      some (.ok (.PrefixInformation {
        prefix_length := prefix_length
        on_link := flags &&& 128 != 0
        autonomous := flags &&& 64 != 0
        valid_lifetime := Duration.fromSecs valid_lifetime
        preferred_lifetime := Duration.fromSecs preferred_lifetime
        prefixAddr := prefixBytes }), rest)
  | some .RedirectedHeader => none
  | some .Mtu =>
    match readBytes 2 buf2 with
    | (.error e, rest) => some (.error e, rest)
    | (.ok _, buf3) =>
    match decodeU32 buf3 with
    | (.error e, rest) => some (.error e, rest)
    | (.ok mtu, rest) => some (.ok (.Mtu mtu), rest)
  | some .RecursiveDnsServer =>
    match readBytes 2 buf2 with
    | (.error e, rest) => some (.error e, rest)
    | (.ok _, buf3) =>
    match decodeU32 buf3 with
    | (.error e, rest) => some (.error e, rest)
    | (.ok lifetime, buf4) =>
    match readAddrs ((len - 1) / 2) buf4 with
    | (.error e, rest) => some (.error e, rest)
    | (.ok addrs, rest) =>
      some (.ok (.RecursiveDnsServer {
        lifetime := Duration.fromSecs lifetime
        addrs := addrs }), rest)
  | none =>
    match readBytes (min (len * 8) 255 - 2) buf2 with
    | (.error e, rest) => some (.error e, rest)
    | (.ok _, rest) => some (.error .UnknownOptionCode, rest)

/-- The option loop of RouterAdvertisement::decode
(`while buf.remaining() > 0 { if let Ok(opt) = IcmpOption::decode(..) }`),
as structural recursion on a fuel bound.  The loop makes progress on every
iteration (IcmpOption::decode consumes at least the code byte), so fuel
`buf.length` never runs out; `decodeOptionsFuel_congr` below proves the
result is independent of any sufficient fuel. -/
def decodeOptionsFuel : Nat → List Nat → Option (List IcmpOption)
  | _, [] => some []
  | 0, _ :: _ => some []
  | fuel + 1, b :: rest =>
    match IcmpOption.decode (b :: rest) with
    | none => none
    | some (.ok opt, rest') => (decodeOptionsFuel fuel rest').map (opt :: ·)
    | some (.error _, rest') => decodeOptionsFuel fuel rest'

/-- The option loop of RouterAdvertisement::decode. -/
def decodeOptions (buf : List Nat) : Option (List IcmpOption) :=
  decodeOptionsFuel buf.length buf

/-- ndp.rs RouterAdvertisement. -/
structure RouterAdvertisement where
  cur_hop_limit : Nat
  managed : Bool
  other : Bool
  router_lifetime : Duration
  reachable_timer : Option Duration
  retrans_timer : Option Duration
  options : List IcmpOption
deriving DecidableEq

/-- The u32 seconds value the RA encoder writes for an optional timer:
`timer.as_secs() as u32` when present, 0 (unspecified) when absent. -/
def timerSecs : Option Duration → Nat
  | some d => d.asSecs % 4294967296
  | none => 0

/-- RouterAdvertisement::encode.  `as u16`/`as u32` casts on as_secs are
truncations (`% 2^w`); an absent timer encodes as 0. -/
def RouterAdvertisement.encode (ra : RouterAdvertisement) : List Nat :=
  ra.cur_hop_limit ::
    ((if ra.managed then 128 else 0) + (if ra.other then 64 else 0)) ::
    (encodeU16 (ra.router_lifetime.asSecs % 65536) ++
     encodeU32 (timerSecs ra.reachable_timer) ++
     encodeU32 (timerSecs ra.retrans_timer) ++
     (ra.options.map IcmpOption.encode).flatten)

/-- RouterAdvertisement::decode.  `none` models a panic escaping from the
option loop (the todo arm of IcmpOption::decode). -/
def RouterAdvertisement.decode (buf : List Nat) :
    Option (Except DecodeError RouterAdvertisement) :=
  match decodeU8 buf with
  | (.error e, _) => some (.error e)
  | (.ok cur_hop_limit, buf1) =>
  match decodeU8 buf1 with
  | (.error e, _) => some (.error e)
  | (.ok flags, buf2) =>
  match decodeU16 buf2 with
  | (.error e, _) => some (.error e)
  | (.ok router_lifetime, buf3) =>
  match decodeU32 buf3 with
  | (.error e, _) => some (.error e)
  | (.ok reachable, buf4) =>
  match decodeU32 buf4 with
  | (.error e, _) => some (.error e)
  | (.ok retrans, buf5) =>
  match decodeOptions buf5 with
  | none => none
  | some options =>
    some (.ok {
      cur_hop_limit := cur_hop_limit
      managed := flags &&& 128 != 0
      other := flags &&& 64 != 0
      router_lifetime := Duration.fromSecs router_lifetime
      reachable_timer :=
        if reachable = 0 then none else some (Duration.fromSecs reachable)
      retrans_timer :=
        if retrans = 0 then none else some (Duration.fromSecs retrans)
      options := options })

/-- ndp.rs RouterSolicitation. -/
structure RouterSolicitation where
  source_link_layer_addr : Option LinkLayerAddress
deriving DecidableEq

/-- RouterSolicitation::encode: 4 reserved zero bytes, then the optional
source link-layer address option. -/
def RouterSolicitation.encode (sol : RouterSolicitation) : List Nat :=
  0 :: 0 :: 0 :: 0 ::
    (match sol.source_link_layer_addr with
     | some a => 1 :: 1 :: a.octets
     | none => [])

/-- RouterSolicitation::decode: skip 4 reserved bytes; if bytes remain, read
one option header (an unknown code fails with Eof) and take the address only
for SourceLinkLayerAddress. -/
def RouterSolicitation.decode (buf : List Nat) :
    Except DecodeError RouterSolicitation :=
  match readBytes 4 buf with
  | (.error e, _) => .error e
  | (.ok _, rest) =>
    if rest.length > 0 then
      match decodeU8 rest with
      | (.error e, _) => .error e
      | (.ok c, rest1) =>
        match OptionCode.from_u8 c with
        | none => .error .Eof
        | some code =>
          match decodeU8 rest1 with
          | (.error e, _) => .error e
          | (.ok _len, rest2) =>
            if code = OptionCode.SourceLinkLayerAddress then
              match LinkLayerAddress.decode rest2 with
              | (.error e, _) => .error e
              | (.ok a, _) => .ok ⟨some a⟩
            else .ok ⟨none⟩
    else .ok ⟨none⟩

/-- ndp.rs IcmpType. -/
inductive IcmpType where
  | RouterSolicitation
  | RouterAdvertisement
deriving DecidableEq

/-- IcmpType::to_u8. -/
def IcmpType.to_u8 : IcmpType → Nat
  | .RouterSolicitation => 133
  | .RouterAdvertisement => 134

/-- IcmpType::from_u8. -/
def IcmpType.from_u8 (typ : Nat) : Option IcmpType :=
  match typ with
  | 133 => some .RouterSolicitation
  | 134 => some .RouterAdvertisement
  | _ => none

/-- ndp.rs IcmpContent. -/
inductive IcmpContent where
  | RouterSolicitation (sol : RouterSolicitation)
  | RouterAdvertisement (adv : RouterAdvertisement)
deriving DecidableEq

/-- ndp.rs IcmpPacket. -/
structure IcmpPacket where
  typ : IcmpType
  code : Nat
  checksum : Nat
  content : IcmpContent
deriving DecidableEq

/-- IcmpPacket::encode. -/
def IcmpPacket.encode (p : IcmpPacket) : List Nat :=
  p.typ.to_u8 :: p.code :: (encodeU16 p.checksum ++
    (match p.content with
     | .RouterSolicitation sol => sol.encode
     | .RouterAdvertisement adv => adv.encode))

/-- IcmpPacket::decode.  `none` models a panic from the RA option loop. -/
def IcmpPacket.decode (buf : List Nat) :
    Option (Except DecodeError IcmpPacket) :=
  match decodeU8 buf with
  | (.error e, _) => some (.error e)
  | (.ok t, buf1) =>
  match IcmpType.from_u8 t with
  | none => some (.error .UnknownIcmpType)
  | some typ =>
  match decodeU8 buf1 with
  | (.error e, _) => some (.error e)
  | (.ok code, buf2) =>
  match decodeU16 buf2 with
  | (.error e, _) => some (.error e)
  | (.ok checksum, buf3) =>
  match typ with
  | .RouterSolicitation =>
    match RouterSolicitation.decode buf3 with
    | .error e => some (.error e)
    | .ok sol =>
      some (.ok ⟨typ, code, checksum, .RouterSolicitation sol⟩)
  | .RouterAdvertisement =>
    match RouterAdvertisement.decode buf3 with
    | none => none
    | some (.error e) => some (.error e)
    | some (.ok adv) =>
      some (.ok ⟨typ, code, checksum, .RouterAdvertisement adv⟩)

/-! ### Control-plane data model (rsadv_control/src/lib.rs, main.rs) -/

/-- rsadv_control Lifetime.  SystemTime is nanoseconds since the Unix
epoch. -/
inductive Lifetime where
  | Duration (d : Rsadv.Duration)
  | Until (ts : Nat)
deriving DecidableEq

/-- Lifetime::duration at a given wall-clock instant `now` (nanoseconds):
`Until(ts).duration_since(now)` saturates below at zero. -/
def Lifetime.durationAt (l : Lifetime) (now : Nat) : Rsadv.Duration :=
  match l with
  | .Duration d => d
  | .Until ts => ⟨ts - now⟩

/-- rsadv_control Prefix (the server-side crate::Prefix has the same
fields). -/
structure Prefix where
  prefixAddr : List Nat
  prefix_length : Nat
  preferred_lifetime : Lifetime
  valid_lifetime : Lifetime
deriving DecidableEq

/-- rsadv_control DnsServer. -/
structure DnsServer where
  addr : List Nat
  lifetime : Lifetime
deriving DecidableEq

/-- rsadv_control Request. -/
inductive Request where
  | AddPrefix (p : Prefix)
  | RemovePrefix (p : Prefix)
  | AddDnsServer (s : DnsServer)
  | RemoveDnsServer (s : DnsServer)
deriving DecidableEq

/-- bytes::BufMut::put_u32_le (little endian). -/
def encodeU32le (n : Nat) : List Nat :=
  [n % 256, n / 256 % 256, n / 65536 % 256, n / 16777216 % 256]

/-- Little-endian u32 read with the `remaining < 4` Eof check. -/
def decodeU32le (buf : List Nat) : Except DecodeError Nat × List Nat :=
  match buf with
  | b1 :: b2 :: b3 :: b4 :: rest =>
    (.ok (b1 + b2 * 256 + b3 * 65536 + b4 * 16777216), rest)
  | _ => (.error .Eof, buf)

/-- The lifetime encoding used by Request::encode: tag byte 1 (Duration) or
2 (Until, seconds since the epoch), then `as_secs() as u32` little endian. -/
def encodeLifetime (l : Lifetime) : List Nat :=
  match l with
  | .Duration d => 1 :: encodeU32le (d.asSecs % 4294967296)
  | .Until ts => 2 :: encodeU32le ((Duration.mk ts).asSecs % 4294967296)

/-- Request::encode.  Every multi-byte integer is written little endian
except one: the RemovePrefix arm writes the valid-lifetime Duration seconds
with `put_u32` (big endian) in the source. -/
def Request.encode : Request → List Nat
  | .AddPrefix p =>
    encodeU32le 1 ++ p.prefixAddr ++ [p.prefix_length] ++
      encodeLifetime p.preferred_lifetime ++ encodeLifetime p.valid_lifetime
  | .RemovePrefix p =>
    encodeU32le 2 ++ p.prefixAddr ++ [p.prefix_length] ++
      encodeLifetime p.preferred_lifetime ++
      (match p.valid_lifetime with
       | .Duration d => 1 :: encodeU32 (d.asSecs % 4294967296)
       | .Until ts => 2 :: encodeU32le ((Duration.mk ts).asSecs % 4294967296))
  | .AddDnsServer s =>
    encodeU32le 3 ++ s.addr ++ encodeLifetime s.lifetime
  | .RemoveDnsServer s =>
    encodeU32le 4 ++ s.addr ++ encodeLifetime s.lifetime

/-- The lifetime decoding used by Request::decode: tag byte then u32 LE
seconds; any other tag fails with Eof. -/
def decodeLifetime (buf : List Nat) : Except DecodeError Lifetime × List Nat :=
  match decodeU8 buf with
  | (.error e, rest) => (.error e, rest)
  | (.ok 1, rest) =>
    match decodeU32le rest with
    | (.error e, rest') => (.error e, rest')
    | (.ok n, rest') => (.ok (.Duration (Duration.fromSecs n)), rest')
  | (.ok 2, rest) =>
    match decodeU32le rest with
    | (.error e, rest') => (.error e, rest')
    | (.ok n, rest') => (.ok (.Until ((Duration.fromSecs n).nanos)), rest')
  | (.ok _, rest) => (.error .Eof, rest)

/-- The prefix body shared by the AddPrefix and RemovePrefix decode arms:
16 address bytes, u8 prefix length, two lifetimes.  The upfront
`remaining < 27` check in the source guarantees every read succeeds. -/
def decodePrefixBody (buf : List Nat) : Except DecodeError Prefix × List Nat :=
  match readBytes 16 buf with
  | (.error e, rest) => (.error e, rest)
  | (.ok addrBytes, buf1) =>
  match decodeU8 buf1 with
  | (.error e, rest) => (.error e, rest)
  | (.ok prefix_length, buf2) =>
  match decodeLifetime buf2 with
  | (.error e, rest) => (.error e, rest)
  | (.ok preferred_lifetime, buf3) =>
  match decodeLifetime buf3 with
  | (.error e, rest) => (.error e, rest)
  | (.ok valid_lifetime, rest) =>
    (.ok ⟨addrBytes, prefix_length, preferred_lifetime, valid_lifetime⟩, rest)

/-- The DNS-server body shared by the AddDnsServer and RemoveDnsServer
decode arms. -/
def decodeDnsBody (buf : List Nat) : Except DecodeError DnsServer × List Nat :=
  match readBytes 16 buf with
  | (.error e, rest) => (.error e, rest)
  | (.ok addrBytes, buf1) =>
  match decodeLifetime buf1 with
  | (.error e, rest) => (.error e, rest)
  | (.ok lifetime, rest) => (.ok ⟨addrBytes, lifetime⟩, rest)

/-- Request::decode: u32 LE discriminator 1-4, then the per-kind body;
a short buffer or unknown discriminator fails with Eof. -/
def Request.decode (buf : List Nat) : Except DecodeError Request :=
  match decodeU32le buf with
  | (.error e, _) => .error e
  | (.ok 1, rest) =>
    if rest.length < 27 then .error .Eof else
    match decodePrefixBody rest with
    | (.error e, _) => .error e
    | (.ok p, _) => .ok (.AddPrefix p)
  | (.ok 2, rest) =>
    if rest.length < 27 then .error .Eof else
    match decodePrefixBody rest with
    | (.error e, _) => .error e
    | (.ok p, _) => .ok (.RemovePrefix p)
  | (.ok 3, rest) =>
    if rest.length < 21 then .error .Eof else
    match decodeDnsBody rest with
    | (.error e, _) => .error e
    | (.ok s, _) => .ok (.AddDnsServer s)
  | (.ok 4, rest) =>
    if rest.length < 21 then .error .Eof else
    match decodeDnsBody rest with
    | (.error e, _) => .error e
    | (.ok s, _) => .ok (.RemoveDnsServer s)
  | (.ok _, _) => .error .Eof

/-- rsadv_control Response. -/
inductive Response where
  | Ok
deriving DecidableEq

/-- Response::encode: u32 LE discriminator 0. -/
def Response.encode : Response → List Nat
  | .Ok => encodeU32le 0

/-- Response::decode. -/
def Response.decode (buf : List Nat) : Except DecodeError Response :=
  match decodeU32le buf with
  | (.error e, _) => .error e
  | (.ok 0, _) => .ok .Ok
  | (.ok _, _) => .error .Eof

/-- The length-prefixed framing used on the control socket:
`(payload.len() as u32).to_le_bytes()` then the payload. -/
def frameMessage (payload : List Nat) : List Nat :=
  encodeU32le payload.length ++ payload

/-! ### Server state, interval clamping, scheduler and reaper (main.rs,
control.rs) -/

/-- main.rs State: the prefix map (an association list keyed by the
128-bit address, iteration order abstracted), the configured MTU and the
DNS-server set. -/
structure State where
  prefixes : List (List Nat × Prefix)
  mtu : Nat
  dns_servers : List (List Nat)
deriving DecidableEq

/-- HashMap::insert keyed by the prefix address (replaces an existing
record). -/
def mapInsert (m : List (List Nat × Prefix)) (k : List Nat) (v : Prefix) :
    List (List Nat × Prefix) :=
  m.filter (fun e => e.1 ≠ k) ++ [(k, v)]

/-- HashMap::remove keyed by the prefix address. -/
def mapRemove (m : List (List Nat × Prefix)) (k : List Nat) :
    List (List Nat × Prefix) :=
  m.filter (fun e => e.1 ≠ k)

/-- HashSet::insert. -/
def setInsert (s : List (List Nat)) (a : List Nat) : List (List Nat) :=
  if a ∈ s then s else s ++ [a]

/-- HashSet::remove. -/
def setRemove (s : List (List Nat)) (a : List Nat) : List (List Nat) :=
  s.filter (fun x => x ≠ a)

/-- The observable actions of one control-connection request iteration
(control.rs handle_conn), in program order. -/
inductive ConnAction where
  | Notify
  | RespondOk
deriving DecidableEq

/-- One iteration of control.rs handle_conn after a request has been
decoded: the state mutation and the ordered observable actions.  Only the
AddPrefix and RemovePrefix arms call notify_one on the state's
notification; the DNS arms mutate the set and respond without signalling. -/
def applyRequest (st : State) : Request → State × List ConnAction
  | .AddPrefix p =>
    ({ st with prefixes := mapInsert st.prefixes p.prefixAddr p },
     [.Notify, .RespondOk])
  | .RemovePrefix p =>
    ({ st with prefixes := mapRemove st.prefixes p.prefixAddr },
     [.Notify, .RespondOk])
  | .AddDnsServer s =>
    ({ st with dns_servers := setInsert st.dns_servers s.addr },
     [.RespondOk])
  | .RemoveDnsServer s =>
    ({ st with dns_servers := setRemove st.dns_servers s.addr },
     [.RespondOk])

/-- The retain pass of the expiry reaper (main.rs): drop prefixes whose
valid lifetime has reached zero.  The DNS-server set is not touched. -/
def reaperRetain (now : Nat) (st : State) : State :=
  { st with prefixes :=
      st.prefixes.filter (fun e => (e.2.valid_lifetime.durationAt now).nanos ≠ 0) }

/-- The MaxRtrAdvInterval clamp at startup (main.rs): config seconds,
clamped to [4 s, 1800 s]. -/
def clampMaxRtrAdvInterval (cfg : Nat) : Duration :=
  let v := Duration.fromSecs cfg
  if v.nanos < (Duration.fromSecs 4).nanos then Duration.fromSecs 4
  else if (Duration.fromSecs 1800).nanos < v.nanos then Duration.fromSecs 1800
  else v

/-- The MinRtrAdvInterval clamp at startup (main.rs): zero selects the
default (max/3 when max is at least 9 s, else max); otherwise the value is
raised to 3 s and capped at `max * 4 / 3` - the source computes 4/3 of
MaxRtrAdvInterval although its comments say 0.75. -/
def clampMinRtrAdvInterval (cfg : Nat) (maxI : Duration) : Duration :=
  let v := Duration.fromSecs cfg
  if v.nanos = 0 then
    if (Duration.fromSecs 9).nanos ≤ maxI.nanos then maxI.divU32 3 else maxI
  else if v.nanos < (Duration.fromSecs 3).nanos then Duration.fromSecs 3
  else if ((maxI.mulU32 4).divU32 3).nanos < v.nanos then
    (maxI.mulU32 4).divU32 3
  else v

/-- The all-nodes multicast address ff02::1 (main.rs Ipv6AddrExt). -/
def MULTICAST_ALL_NODES : List Nat :=
  [255, 2, 0, 0, 0, 0, 0, 0, 0, 0, 0, 0, 0, 0, 0, 1]

/-- The per-prefix body of the option construction in the scheduler loop
(main.rs): prefixes whose valid lifetime has reached zero are skipped; the
rest become PrefixInformation options with the on-link and autonomous flags
set and the current remaining lifetimes. -/
def prefixOption (now : Nat) (e : List Nat × Prefix) : Option IcmpOption :=
  if (e.2.valid_lifetime.durationAt now).nanos = 0 then none
  else some (IcmpOption.PrefixInformation {
    prefix_length := e.2.prefix_length
    on_link := true
    autonomous := true
    valid_lifetime := e.2.valid_lifetime.durationAt now
    preferred_lifetime := e.2.preferred_lifetime.durationAt now
    prefixAddr := e.2.prefixAddr })

/-- The RA construction of the scheduler loop body (main.rs): router
lifetime is zero when shutdown is in progress, else 3 x MaxRtrAdvInterval;
options are the source link-layer address, the MTU option when mtu is
nonzero, one RDNSS option with fixed lifetime 3600 s when the DNS set is
nonempty, and one PrefixInformation option per prefix whose valid lifetime
is still nonzero. -/
def buildRouterAdvertisement (shutdownInProgress : Bool) (maxI : Duration)
    (mac : LinkLayerAddress) (now : Nat) (st : State) : IcmpPacket :=
  let router_lifetime :=
    if shutdownInProgress then Duration.fromSecs 0 else maxI.mulU32 3
  let options := [IcmpOption.SourceLinkLayerAddress mac]
  let options := if st.mtu ≠ 0 then options ++ [IcmpOption.Mtu st.mtu]
    else options
  let options := if st.dns_servers ≠ [] then
      options ++ [IcmpOption.RecursiveDnsServer
        ⟨Duration.fromSecs 3600, st.dns_servers⟩]
    else options
  let options := options ++ st.prefixes.filterMap (prefixOption now)
  { typ := .RouterAdvertisement
    code := 0
    checksum := 0
    content := .RouterAdvertisement {
      cur_hop_limit := 64
      managed := false
      other := false
      router_lifetime := router_lifetime
      reachable_timer := none
      retrans_timer := none
      options := options } }

/-- The (destination, packet) emissions of the scheduler once the shutdown
signal has fired (main.rs scheduler loop): the biased select takes the
shutdown branch, the RA is built with shutdown in progress and sent to the
all-nodes multicast address, and the loop then breaks - exactly one
emission. -/
def shutdownEmissions (maxI : Duration) (mac : LinkLayerAddress) (now : Nat)
    (st : State) : List (List Nat × IcmpPacket) :=
  [(MULTICAST_ALL_NODES, buildRouterAdvertisement true maxI mac now st)]

/-- main.rs MAX_FINAL_RTR_ADVERTISEMENTS (defined in the source, never
read by it). -/
def MAX_FINAL_RTR_ADVERTISEMENTS : Nat := 3

/-! ### Validity predicates

These express the constraints the Rust types impose on the model
(`u8`/`u16`/`u32` ranges, fixed array lengths) together with the
representability conditions on durations. -/

/-- The duration is a whole number of seconds (no sub-second part). -/
def Duration.Whole (d : Duration) : Prop := d.nanos % 1000000000 = 0

/-- A 6-byte MAC address. -/
def LinkLayerAddress.Valid (a : LinkLayerAddress) : Prop :=
  a.octets.length = 6 ∧ ∀ b ∈ a.octets, b < 256

/-- Shape constraints alone (array lengths and the u8 length-byte bound for
the RDNSS option); enough for the wire-footprint property. -/
def IcmpOption.LenWF : IcmpOption → Prop
  | .SourceLinkLayerAddress a => a.octets.length = 6
  | .TargetLinkLayerAddress a => a.octets.length = 6
  | .PrefixInformation o => o.prefixAddr.length = 16
  | .Mtu _ => True
  | .RecursiveDnsServer o =>
    o.addrs.length ≤ 127 ∧ ∀ x ∈ o.addrs, x.length = 16

/-- Full validity of an option: shape constraints, byte ranges, and
durations that are whole seconds representable in their u32 wire field. -/
def IcmpOption.Valid : IcmpOption → Prop
  | .SourceLinkLayerAddress a => a.Valid
  | .TargetLinkLayerAddress a => a.Valid
  | .PrefixInformation o =>
    o.prefix_length < 256 ∧ o.prefixAddr.length = 16 ∧
    (∀ b ∈ o.prefixAddr, b < 256) ∧
    o.valid_lifetime.Whole ∧ o.valid_lifetime.asSecs < 4294967296 ∧
    o.preferred_lifetime.Whole ∧ o.preferred_lifetime.asSecs < 4294967296
  | .Mtu m => m < 4294967296
  | .RecursiveDnsServer o =>
    o.lifetime.Whole ∧ o.lifetime.asSecs < 4294967296 ∧
    o.addrs.length ≤ 127 ∧ ∀ x ∈ o.addrs, x.length = 16 ∧ ∀ b ∈ x, b < 256

/-- Validity of an optional RA timer: absent, or a whole-second duration
that is nonzero (zero encodes "unspecified") and fits the u32 field. -/
def TimerValid : Option Duration → Prop
  | none => True
  | some d => d.Whole ∧ 0 < d.asSecs ∧ d.asSecs < 4294967296

/-- Validity of a router advertisement value. -/
def RouterAdvertisement.Valid (ra : RouterAdvertisement) : Prop :=
  ra.cur_hop_limit < 256 ∧
  ra.router_lifetime.Whole ∧ ra.router_lifetime.asSecs < 65536 ∧
  TimerValid ra.reachable_timer ∧ TimerValid ra.retrans_timer ∧
  ∀ o ∈ ra.options, o.Valid

/-- Validity of a router solicitation value. -/
def RouterSolicitation.Valid (sol : RouterSolicitation) : Prop :=
  match sol.source_link_layer_addr with
  | none => True
  | some a => a.Valid

/-- Validity of a packet: byte-range fields, a type tag consistent with the
content, and valid content. -/
def IcmpPacket.Valid (p : IcmpPacket) : Prop :=
  p.code < 256 ∧ p.checksum < 65536 ∧
  match p.typ, p.content with
  | .RouterSolicitation, .RouterSolicitation sol => sol.Valid
  | .RouterAdvertisement, .RouterAdvertisement adv => adv.Valid
  | _, _ => False

instance (d : Duration) : Decidable d.Whole := by
  unfold Duration.Whole; infer_instance

instance (a : LinkLayerAddress) : Decidable a.Valid := by
  unfold LinkLayerAddress.Valid; infer_instance

instance (o : IcmpOption) : Decidable o.LenWF := by
  cases o <;> · dsimp only [IcmpOption.LenWF]; infer_instance

instance (o : IcmpOption) : Decidable o.Valid := by
  cases o <;> · dsimp only [IcmpOption.Valid]; infer_instance

instance (t : Option Duration) : Decidable (TimerValid t) := by
  cases t <;> · dsimp only [TimerValid]; infer_instance

instance (ra : RouterAdvertisement) : Decidable ra.Valid := by
  unfold RouterAdvertisement.Valid; infer_instance

instance (sol : RouterSolicitation) : Decidable sol.Valid := by
  rcases sol with ⟨slla⟩
  rcases slla with - | a <;> · dsimp only [RouterSolicitation.Valid]; infer_instance

instance (p : IcmpPacket) : Decidable p.Valid := by
  rcases p with ⟨typ, code, checksum, content⟩
  cases typ <;> cases content <;> · dsimp only [IcmpPacket.Valid]; infer_instance

/-- The options of a packet, when it is a router advertisement. -/
def IcmpPacket.optionsOf (p : IcmpPacket) : List IcmpOption :=
  match p.content with
  | .RouterAdvertisement ra => ra.options
  | _ => []

/-- The RouterLifetime field of a packet, when it is a router
advertisement. -/
def IcmpPacket.routerLifetimeOf (p : IcmpPacket) : Option Duration :=
  match p.content with
  | .RouterAdvertisement ra => some ra.router_lifetime
  | _ => none

/-- Whether a packet is an RA carrying at least one PrefixInformation
option. -/
def IcmpPacket.hasPrefixInformation (p : IcmpPacket) : Bool :=
  (p.optionsOf).any (fun o =>
    match o with
    | .PrefixInformation _ => true
    | _ => false)

/-- Whether an option is anything but an RDNSS option with lifetime
3600 s. -/
def rdnssLifetimeIs3600 : IcmpOption → Bool
  | .RecursiveDnsServer r => r.lifetime == Duration.fromSecs 3600
  | _ => true

/-- A packet exercising every supported option kind, used to witness the
codec round trip. -/
def c1WitnessPacket : IcmpPacket :=
  { typ := .RouterAdvertisement
    code := 0
    checksum := 4660
    content := .RouterAdvertisement {
      cur_hop_limit := 64
      managed := true
      other := false
      router_lifetime := Duration.fromSecs 5400
      reachable_timer := some (Duration.fromSecs 30)
      retrans_timer := none
      options := [
        .SourceLinkLayerAddress ⟨[1, 2, 3, 4, 5, 6]⟩,
        .TargetLinkLayerAddress ⟨[7, 8, 9, 10, 11, 12]⟩,
        .Mtu 1500,
        .RecursiveDnsServer ⟨Duration.fromSecs 3600,
          [List.replicate 16 7, List.replicate 16 9]⟩,
        .PrefixInformation {
          prefix_length := 64
          on_link := true
          autonomous := true
          valid_lifetime := Duration.fromSecs 86400
          preferred_lifetime := Duration.fromSecs 14400
          prefixAddr := [32, 1, 13, 184, 0, 0, 0, 0, 0, 0, 0, 0, 0, 0, 0, 0] } ] } }

/-- A packet that is valid in the sense of the claim (all durations in
range for their wire width) but whose present-and-zero ReachableTime does
not survive the round trip: 0 on the wire decodes as "unspecified". -/
def c1CounterPacket : IcmpPacket :=
  { typ := .RouterAdvertisement
    code := 0
    checksum := 0
    content := .RouterAdvertisement {
      cur_hop_limit := 64
      managed := false
      other := false
      router_lifetime := Duration.fromSecs 0
      reachable_timer := some (Duration.fromSecs 0)
      retrans_timer := none
      options := [] } }

/-- What `c1CounterPacket` actually decodes back to. -/
def c1CounterDecoded : IcmpPacket :=
  { typ := .RouterAdvertisement
    code := 0
    checksum := 0
    content := .RouterAdvertisement {
      cur_hop_limit := 64
      managed := false
      other := false
      router_lifetime := Duration.fromSecs 0
      reachable_timer := none
      retrans_timer := none
      options := [] } }

/-- A state holding one still-valid prefix, for the shutdown-RA claim. -/
def c2State : State :=
  { prefixes := [([32, 1, 13, 184, 0, 0, 0, 0, 0, 0, 0, 0, 0, 0, 0, 0],
      { prefixAddr := [32, 1, 13, 184, 0, 0, 0, 0, 0, 0, 0, 0, 0, 0, 0, 0]
        prefix_length := 64
        preferred_lifetime := .Duration (Duration.fromSecs 3600)
        valid_lifetime := .Duration (Duration.fromSecs 3600) })]
    mtu := 0
    dns_servers := [] }

/-- The RemovePrefix request on which the big-endian encoder slip is
visible: a Duration valid lifetime of 1 second. -/
def c4Request : Request :=
  .RemovePrefix
    { prefixAddr := List.replicate 16 0
      prefix_length := 64
      preferred_lifetime := .Duration (Duration.fromSecs 0)
      valid_lifetime := .Duration (Duration.fromSecs 1) }

/-- An RA whose RouterLifetime seconds (65536) exceed the u16 field. -/
def c5Ra : RouterAdvertisement :=
  { cur_hop_limit := 64
    managed := false
    other := false
    router_lifetime := Duration.fromSecs 65536
    reachable_timer := none
    retrans_timer := none
    options := [] }

/-- An RDNSS option with 128 addresses, overflowing the u8 length byte. -/
def c7Option : IcmpOption :=
  .RecursiveDnsServer ⟨Duration.fromSecs 3600,
    List.replicate 128 (List.replicate 16 0)⟩

/-- An empty server state. -/
def c9State : State := { prefixes := [], mtu := 0, dns_servers := [] }

/-- A DNS-server request carrying a (discarded) lifetime. -/
def c9Request : Request :=
  .AddDnsServer ⟨List.replicate 16 1, .Duration (Duration.fromSecs 9)⟩

/-! ### Primitive codec lemmas -/

theorem decodeU16_encode (n : Nat) (rest : List Nat) (h : n < 65536) :
    decodeU16 (encodeU16 n ++ rest) = (.ok n, rest) := by
  have hn : n / 256 % 256 * 256 + n % 256 = n := by omega
  simp [encodeU16, decodeU16, hn]

theorem decodeU32_encode (n : Nat) (rest : List Nat) (h : n < 4294967296) :
    decodeU32 (encodeU32 n ++ rest) = (.ok n, rest) := by
  have hn : n / 16777216 % 256 * 16777216 + n / 65536 % 256 * 65536 +
      n / 256 % 256 * 256 + n % 256 = n := by omega
  simp [encodeU32, decodeU32, hn]

theorem decodeU32le_encode (n : Nat) (rest : List Nat) (h : n < 4294967296) :
    decodeU32le (encodeU32le n ++ rest) = (.ok n, rest) := by
  have hn : n % 256 + n / 256 % 256 * 256 + n / 65536 % 256 * 65536 +
      n / 16777216 % 256 * 16777216 = n := by omega
  simp [encodeU32le, decodeU32le, hn]

theorem readBytes_exact (xs rest : List Nat) :
    readBytes xs.length (xs ++ rest) = (.ok xs, rest) := by
  induction xs with
  | nil => simp [readBytes]
  | cons b bs ih => simp [readBytes, decodeU8, ih]

theorem readBytes_exact_of_len (k : Nat) (xs rest : List Nat)
    (h : xs.length = k) : readBytes k (xs ++ rest) = (.ok xs, rest) := by
  subst h; exact readBytes_exact xs rest

theorem readBytes_len (k : Nat) (buf : List Nat) :
    ((readBytes k buf).2).length ≤ buf.length := by
  induction k generalizing buf with
  | zero => simp [readBytes]
  | succ k ih =>
    cases buf with
    | nil => simp [readBytes, decodeU8]
    | cons b rest =>
      have h2 := ih rest
      simp only [readBytes, decodeU8]
      cases h : readBytes k rest with
      | mk res rest' =>
        rw [h] at h2
        cases res <;> simpa using Nat.le_succ_of_le h2

theorem readAddrs_exact (addrs : List (List Nat)) (rest : List Nat)
    (h : ∀ x ∈ addrs, x.length = 16) :
    readAddrs addrs.length (addrs.flatten ++ rest) = (.ok addrs, rest) := by
  induction addrs with
  | nil => simp [readAddrs]
  | cons a as_ ih =>
    have ha : a.length = 16 := h a (by simp)
    have hrest : ∀ x ∈ as_, x.length = 16 := fun x hx => h x (by simp [hx])
    simp only [List.length_cons, List.flatten_cons, readAddrs, List.append_assoc,
      readBytes_exact_of_len 16 a (as_.flatten ++ rest) ha, ih hrest]

theorem readAddrs_len (k : Nat) (buf : List Nat) :
    ((readAddrs k buf).2).length ≤ buf.length := by
  induction k generalizing buf with
  | zero => simp [readAddrs]
  | succ k ih =>
    have h1 := readBytes_len 16 buf
    simp only [readAddrs]
    cases hb : readBytes 16 buf with
    | mk res rest =>
      rw [hb] at h1
      cases res with
      | error e => simpa using h1
      | ok a =>
        have h2 := ih rest
        rcases h' : readAddrs k rest with ⟨res', rest'⟩
        rw [h'] at h2
        simp only [h']
        simp only [List.length_cons] at h1 h2 ⊢
        cases res' <;> simp <;> omega

theorem LinkLayerAddress.decode_len_addr (buf : List Nat) :
    ((LinkLayerAddress.decode buf).2).length ≤ buf.length := by
  have h := readBytes_len 6 buf
  simp only [LinkLayerAddress.decode]
  cases hb : readBytes 6 buf with
  | mk res rest =>
    rw [hb] at h
    cases res <;> simpa using h

theorem LinkLayerAddress.decode_encode_addr (a : LinkLayerAddress)
    (rest : List Nat) (h : a.octets.length = 6) :
    LinkLayerAddress.decode (a.octets ++ rest) = (.ok a, rest) := by
  simp [LinkLayerAddress.decode, readBytes_exact_of_len 6 a.octets rest h]

theorem Duration.fromSecs_asSecs (d : Duration) (h : d.Whole) :
    Duration.fromSecs d.asSecs = d := by
  cases d with
  | mk n =>
    simp only [Duration.Whole] at h
    simp only [Duration.fromSecs, Duration.asSecs, Duration.mk.injEq]
    omega

theorem decodeU8_len (buf : List Nat) :
    ((decodeU8 buf).2).length ≤ buf.length := by
  cases buf <;> simp [decodeU8]

theorem decodeU8_nil : decodeU8 [] = (.error .Eof, []) := rfl

theorem decodeU8_cons (b : Nat) (rest : List Nat) :
    decodeU8 (b :: rest) = (.ok b, rest) := rfl

theorem decodeU16_len (buf : List Nat) :
    ((decodeU16 buf).2).length ≤ buf.length := by
  rcases buf with _ | ⟨a, _ | ⟨b, t⟩⟩
  · simp [decodeU16]
  · simp [decodeU16]
  · simp only [decodeU16, List.length_cons]
    omega

theorem decodeU32_len (buf : List Nat) :
    ((decodeU32 buf).2).length ≤ buf.length := by
  rcases buf with _ | ⟨a, _ | ⟨b, _ | ⟨c, _ | ⟨d, t⟩⟩⟩⟩
  · simp [decodeU32]
  · simp [decodeU32]
  · simp [decodeU32]
  · simp [decodeU32]
  · simp only [decodeU32, List.length_cons]
    omega

/-- IcmpOption::decode consumes at least its first byte: on any nonempty
buffer the remaining buffer is strictly shorter.  This is the progress fact
behind termination of the RA option loop. -/
theorem IcmpOption.decode_len_option (b : Nat) (rest : List Nat)
    (r : Except DecodeError IcmpOption) (rest' : List Nat)
    (h : IcmpOption.decode (b :: rest) = some (r, rest')) :
    rest'.length ≤ rest.length := by
  cases rest with
  | nil =>
    simp only [IcmpOption.decode, decodeU8_cons, decodeU8_nil,
      Option.some.injEq, Prod.mk.injEq] at h
    obtain ⟨-, h2⟩ := h
    subst h2
    simp
  | cons l rest2 =>
    simp only [IcmpOption.decode, decodeU8_cons] at h
    rcases hb : OptionCode.from_u8 b with - | oc
    case none =>
      simp only [hb] at h
      rcases h1 : readBytes (min (l * 8) 255 - 2) rest2 with ⟨r1, buf1⟩
      have l1 := readBytes_len (min (l * 8) 255 - 2) rest2
      rw [h1] at l1
      simp only [h1] at h
      cases r1 <;>
        · simp only [Option.some.injEq, Prod.mk.injEq] at h
          obtain ⟨-, h2⟩ := h
          subst h2
          simp only [List.length_cons] at l1 ⊢
          omega
    case some =>
      cases oc with
      | SourceLinkLayerAddress | TargetLinkLayerAddress =>
        all_goals
          simp only [hb] at h
          rcases h1 : LinkLayerAddress.decode rest2 with ⟨r1, buf1⟩
          have l1 := LinkLayerAddress.decode_len_addr rest2
          rw [h1] at l1
          simp only [h1] at h
          cases r1 <;>
            · simp only [Option.some.injEq, Prod.mk.injEq] at h
              obtain ⟨-, h2⟩ := h
              subst h2
              simp only [List.length_cons] at l1 ⊢
              omega
      | PrefixInformation =>
        simp only [hb] at h
        rcases h1 : decodeU8 rest2 with ⟨r1, buf1⟩
        have l1 := decodeU8_len rest2
        rw [h1] at l1
        simp only [h1] at h
        cases r1 with
        | error e =>
          simp only [Option.some.injEq, Prod.mk.injEq] at h
          obtain ⟨-, h2⟩ := h
          subst h2
          simp only [List.length_cons] at l1 ⊢
          omega
        | ok v1 =>
          rcases h2 : decodeU8 buf1 with ⟨r2, buf2⟩
          have l2 := decodeU8_len buf1
          rw [h2] at l2
          simp only [h2] at h
          cases r2 with
          | error e =>
            simp only [Option.some.injEq, Prod.mk.injEq] at h
            obtain ⟨-, h3⟩ := h
            subst h3
            simp only [List.length_cons] at l1 l2 ⊢
            omega
          | ok v2 =>
            rcases h3 : decodeU32 buf2 with ⟨r3, buf3⟩
            have l3 := decodeU32_len buf2
            rw [h3] at l3
            simp only [h3] at h
            cases r3 with
            | error e =>
              simp only [Option.some.injEq, Prod.mk.injEq] at h
              obtain ⟨-, h4⟩ := h
              subst h4
              simp only [List.length_cons] at l1 l2 l3 ⊢
              omega
            | ok v3 =>
              rcases h4 : decodeU32 buf3 with ⟨r4, buf4⟩
              have l4 := decodeU32_len buf3
              rw [h4] at l4
              simp only [h4] at h
              cases r4 with
              | error e =>
                simp only [Option.some.injEq, Prod.mk.injEq] at h
                obtain ⟨-, h5⟩ := h
                subst h5
                simp only [List.length_cons] at l1 l2 l3 l4 ⊢
                omega
              | ok v4 =>
                rcases h5 : decodeU32 buf4 with ⟨r5, buf5⟩
                have l5 := decodeU32_len buf4
                rw [h5] at l5
                simp only [h5] at h
                cases r5 with
                | error e =>
                  simp only [Option.some.injEq, Prod.mk.injEq] at h
                  obtain ⟨-, h6⟩ := h
                  subst h6
                  simp only [List.length_cons] at l1 l2 l3 l4 l5 ⊢
                  omega
                | ok v5 =>
                  rcases h6 : readBytes 16 buf5 with ⟨r6, buf6⟩
                  have l6 := readBytes_len 16 buf5
                  rw [h6] at l6
                  simp only [h6] at h
                  cases r6 <;>
                    · simp only [Option.some.injEq, Prod.mk.injEq] at h
                      obtain ⟨-, h7⟩ := h
                      subst h7
                      simp only [List.length_cons] at l1 l2 l3 l4 l5 l6 ⊢
                      omega
      | RedirectedHeader =>
        simp only [hb] at h
        simp at h
      | Mtu =>
        simp only [hb] at h
        rcases h1 : readBytes 2 rest2 with ⟨r1, buf1⟩
        have l1 := readBytes_len 2 rest2
        rw [h1] at l1
        simp only [h1] at h
        cases r1 with
        | error e =>
          simp only [Option.some.injEq, Prod.mk.injEq] at h
          obtain ⟨-, h2⟩ := h
          subst h2
          simp only [List.length_cons] at l1 ⊢
          omega
        | ok v1 =>
          rcases h2 : decodeU32 buf1 with ⟨r2, buf2⟩
          have l2 := decodeU32_len buf1
          rw [h2] at l2
          simp only [h2] at h
          cases r2 <;>
            · simp only [Option.some.injEq, Prod.mk.injEq] at h
              obtain ⟨-, h3⟩ := h
              subst h3
              simp only [List.length_cons] at l1 l2 ⊢
              omega
      | RecursiveDnsServer =>
        simp only [hb] at h
        rcases h1 : readBytes 2 rest2 with ⟨r1, buf1⟩
        have l1 := readBytes_len 2 rest2
        rw [h1] at l1
        simp only [h1] at h
        cases r1 with
        | error e =>
          simp only [Option.some.injEq, Prod.mk.injEq] at h
          obtain ⟨-, h2⟩ := h
          subst h2
          simp only [List.length_cons] at l1 ⊢
          omega
        | ok v1 =>
          rcases h2 : decodeU32 buf1 with ⟨r2, buf2⟩
          have l2 := decodeU32_len buf1
          rw [h2] at l2
          simp only [h2] at h
          cases r2 with
          | error e =>
            simp only [Option.some.injEq, Prod.mk.injEq] at h
            obtain ⟨-, h3⟩ := h
            subst h3
            simp only [List.length_cons] at l1 l2 ⊢
            omega
          | ok v2 =>
            rcases h3 : readAddrs ((l - 1) / 2) buf2 with ⟨r3, buf3⟩
            have l3 := readAddrs_len ((l - 1) / 2) buf2
            rw [h3] at l3
            simp only [h3] at h
            cases r3 <;>
              · simp only [Option.some.injEq, Prod.mk.injEq] at h
                obtain ⟨-, h4⟩ := h
                subst h4
                simp only [List.length_cons] at l1 l2 l3 ⊢
                omega

/-- The option-loop result does not depend on the fuel, for any fuel at
least the buffer length: the loop consumes at least one byte per
iteration. -/
theorem decodeOptionsFuel_congr (f1 : Nat) (f2 : Nat) (buf : List Nat)
    (h1 : buf.length ≤ f1) (h2 : buf.length ≤ f2) :
    decodeOptionsFuel f1 buf = decodeOptionsFuel f2 buf := by
  induction f1 generalizing f2 buf with
  | zero =>
    have hb : buf = [] := by cases buf <;> simp_all
    subst hb
    cases f2 <;> simp [decodeOptionsFuel]
  | succ f1 ih =>
    cases buf with
    | nil => cases f2 <;> simp [decodeOptionsFuel]
    | cons b rest =>
      cases f2 with
      | zero => simp at h2
      | succ g =>
        simp only [decodeOptionsFuel]
        rcases hd : IcmpOption.decode (b :: rest) with - | ⟨res, rest'⟩
        · rfl
        · have hlen := IcmpOption.decode_len_option b rest res rest' hd
          simp only [List.length_cons] at h1 h2
          cases res with
          | ok opt => simp only [ih g rest' (by omega) (by omega)]
          | error e => simp only [ih g rest' (by omega) (by omega)]

/-- One unfolding step of the option loop on a nonempty buffer. -/
theorem decodeOptions_cons (b : Nat) (rest : List Nat) :
    decodeOptions (b :: rest) =
      match IcmpOption.decode (b :: rest) with
      | none => none
      | some (.ok opt, rest') => (decodeOptions rest').map (opt :: ·)
      | some (.error _, rest') => decodeOptions rest' := by
  simp only [decodeOptions, List.length_cons, decodeOptionsFuel]
  rcases hd : IcmpOption.decode (b :: rest) with - | ⟨res, rest'⟩
  · rfl
  · have hlen := IcmpOption.decode_len_option b rest res rest' hd
    cases res with
    | ok opt =>
      simp only [decodeOptionsFuel_congr rest.length rest'.length rest' hlen
        le_rfl]
    | error e =>
      simp only [decodeOptionsFuel_congr rest.length rest'.length rest' hlen
        le_rfl]

theorem from_u8_one : OptionCode.from_u8 1 = some .SourceLinkLayerAddress := rfl

theorem from_u8_two : OptionCode.from_u8 2 = some .TargetLinkLayerAddress := rfl

theorem from_u8_three : OptionCode.from_u8 3 = some .PrefixInformation := rfl

theorem from_u8_five : OptionCode.from_u8 5 = some .Mtu := rfl

theorem from_u8_25 : OptionCode.from_u8 25 = some .RecursiveDnsServer := rfl

theorem flags_bit7 (m : Bool) (o : Bool) :
    (((if m then 128 else 0) + (if o then 64 else 0) : Nat) &&& 128 != 0) = m := by
  cases m <;> cases o <;> decide

theorem flags_bit6 (m : Bool) (o : Bool) :
    (((if m then 128 else 0) + (if o then 64 else 0) : Nat) &&& 64 != 0) = o := by
  cases m <;> cases o <;> decide

theorem decodeU32_encode_mod (n : Nat) (rest : List Nat) :
    decodeU32 (encodeU32 (n % 4294967296) ++ rest) = (.ok (n % 4294967296), rest) :=
  decodeU32_encode _ _ (Nat.mod_lt _ (by omega))

theorem decodeU32_encode_zero (rest : List Nat) :
    decodeU32 (encodeU32 0 ++ rest) = (.ok 0, rest) :=
  decodeU32_encode _ _ (by omega)

theorem decodeU16_encode_mod (n : Nat) (rest : List Nat) :
    decodeU16 (encodeU16 (n % 65536) ++ rest) = (.ok (n % 65536), rest) :=
  decodeU16_encode _ _ (Nat.mod_lt _ (by omega))

/-- Decoding an encoded valid option consumes exactly its bytes and
returns it unchanged. -/
theorem IcmpOption.decode_encode_option (opt : IcmpOption) (rest : List Nat)
    (h : opt.Valid) :
    IcmpOption.decode (opt.encode ++ rest) = some (.ok opt, rest) := by
  cases opt with
  | SourceLinkLayerAddress a =>
    obtain ⟨h6, -⟩ := h
    simp only [IcmpOption.encode, List.cons_append, IcmpOption.decode,
      decodeU8_cons, from_u8_one, LinkLayerAddress.decode_encode_addr a rest h6]
  | TargetLinkLayerAddress a =>
    obtain ⟨h6, -⟩ := h
    simp only [IcmpOption.encode, List.cons_append, IcmpOption.decode,
      decodeU8_cons, from_u8_two, LinkLayerAddress.decode_encode_addr a rest h6]
  | PrefixInformation o =>
    obtain ⟨hpl, hlen, hbytes, hvw, hv32, hpw, hp32⟩ := h
    have e1 : o.valid_lifetime.asSecs % 4294967296 = o.valid_lifetime.asSecs :=
      Nat.mod_eq_of_lt hv32
    have e2 : o.preferred_lifetime.asSecs % 4294967296 =
        o.preferred_lifetime.asSecs := Nat.mod_eq_of_lt hp32
    simp only [IcmpOption.encode, List.cons_append, List.append_assoc,
      IcmpOption.decode, decodeU8_cons, from_u8_three, e1, e2,
      decodeU32_encode, hv32, hp32, decodeU32_encode_zero,
      readBytes_exact_of_len 16 o.prefixAddr rest hlen,
      Duration.fromSecs_asSecs o.valid_lifetime hvw,
      Duration.fromSecs_asSecs o.preferred_lifetime hpw,
      flags_bit7, flags_bit6]
  | Mtu m =>
    simp only [IcmpOption.encode, List.cons_append, IcmpOption.decode,
      decodeU8_cons, from_u8_five, readBytes, decodeU32_encode m rest h]
  | RecursiveDnsServer o =>
    obtain ⟨hlw, hl32, hn, haddrs⟩ := h
    have e1 : o.lifetime.asSecs % 4294967296 = o.lifetime.asSecs :=
      Nat.mod_eq_of_lt hl32
    have hlenbyte : (1 + o.addrs.length % 256 * 2) % 256 =
        1 + o.addrs.length * 2 := by omega
    have hnum : (1 + o.addrs.length * 2 - 1) / 2 = o.addrs.length := by omega
    have hall : ∀ x ∈ o.addrs, x.length = 16 := fun x hx => (haddrs x hx).1
    simp only [IcmpOption.encode, hlenbyte, List.cons_append,
      List.append_assoc, IcmpOption.decode, decodeU8_cons, from_u8_25,
      readBytes, decodeU8_cons, e1, decodeU32_encode, hl32,
      Duration.fromSecs_asSecs o.lifetime hlw, hnum,
      readAddrs_exact o.addrs rest hall]

theorem decodeOptions_nil : decodeOptions [] = some [] := rfl

/-- Consuming one encoded valid option at the head of the option loop. -/
theorem decodeOptions_encode_append (opt : IcmpOption) (rest : List Nat)
    (h : opt.Valid) :
    decodeOptions (opt.encode ++ rest) = (decodeOptions rest).map (opt :: ·) := by
  have hd := IcmpOption.decode_encode_option opt rest h
  cases opt <;>
    · simp only [IcmpOption.encode, List.cons_append] at hd ⊢
      rw [decodeOptions_cons]
      simp only [hd]

/-- The option loop decodes a concatenation of encoded valid options back
to the same list. -/
theorem decodeOptions_encode_list (opts : List IcmpOption)
    (h : ∀ o ∈ opts, o.Valid) :
    decodeOptions ((opts.map IcmpOption.encode).flatten) = some opts := by
  induction opts with
  | nil => rfl
  | cons o os ih =>
    simp only [List.map_cons, List.flatten_cons]
    rw [decodeOptions_encode_append o _ (h o (by simp)),
      ih (fun x hx => h x (by simp [hx]))]
    rfl

/-- The unknown-option arm consumes exactly the option body (for lengths
where the saturating arithmetic is exact) and reports UnknownOptionCode,
which the option loop ignores. -/
theorem decodeOptions_skip_unknown (code : Nat) (L : Nat)
    (payload rest : List Nat) (hcode : OptionCode.from_u8 code = none)
    (hL1 : 1 ≤ L) (hL2 : L ≤ 31) (hlen : payload.length = L * 8 - 2) :
    decodeOptions (code :: L :: (payload ++ rest)) = decodeOptions rest := by
  have hmin : min (L * 8) 255 - 2 = payload.length := by omega
  have hskip : IcmpOption.decode (code :: L :: (payload ++ rest)) =
      some (.error .UnknownOptionCode, rest) := by
    simp only [IcmpOption.decode, decodeU8_cons, hcode, hmin,
      readBytes_exact payload rest]
  rw [decodeOptions_cons]
  simp only [hskip]

theorem timer_val_lt (t : Option Duration) : timerSecs t < 4294967296 := by
  cases t with
  | none => simp [timerSecs]
  | some d => exact Nat.mod_lt _ (by omega)

theorem timer_val_roundtrip (t : Option Duration) (h : TimerValid t) :
    (if timerSecs t = 0 then none
      else some (Duration.fromSecs (timerSecs t))) = t := by
  cases t with
  | none => simp [timerSecs]
  | some d =>
    obtain ⟨hw, hpos, hlt⟩ := h
    have e : timerSecs (some d) = d.asSecs := Nat.mod_eq_of_lt hlt
    simp only [e]
    rw [if_neg (by omega), Duration.fromSecs_asSecs d hw]

/-- Decoding an encoded valid router advertisement body recovers it. -/
theorem RouterAdvertisement.decode_encode_ra (ra : RouterAdvertisement)
    (h : ra.Valid) : RouterAdvertisement.decode ra.encode = some (.ok ra) := by
  rcases ra with ⟨chl, m, oth, rl, reach, retrans, opts⟩
  obtain ⟨hchl, hrlw, hrl16, hreach, hretrans, hopts⟩ := h
  have e1 : rl.asSecs % 65536 = rl.asSecs := Nat.mod_eq_of_lt hrl16
  simp only [RouterAdvertisement.encode, RouterAdvertisement.decode,
    List.cons_append, List.append_assoc, decodeU8_cons, e1,
    decodeU16_encode, hrl16, decodeU32_encode, timer_val_lt,
    flags_bit7, flags_bit6, Duration.fromSecs_asSecs rl hrlw,
    timer_val_roundtrip reach hreach, timer_val_roundtrip retrans hretrans,
    decodeOptions_encode_list opts hopts]

theorem LinkLayerAddress.decode_self (a : LinkLayerAddress)
    (h : a.octets.length = 6) :
    LinkLayerAddress.decode a.octets = (.ok a, []) := by
  have := LinkLayerAddress.decode_encode_addr a [] h
  simpa using this

/-- Decoding an encoded valid router solicitation body recovers it. -/
theorem RouterSolicitation.decode_encode_sol (sol : RouterSolicitation)
    (h : sol.Valid) : RouterSolicitation.decode sol.encode = .ok sol := by
  rcases sol with ⟨slla⟩
  cases slla with
  | none => rfl
  | some a =>
    obtain ⟨h6, -⟩ := h
    simp only [RouterSolicitation.encode, RouterSolicitation.decode,
      readBytes, decodeU8_cons, from_u8_one, List.length_cons,
      LinkLayerAddress.decode_self a h6]
    simp

theorem IcmpType.from_u8_133 : IcmpType.from_u8 133 = some .RouterSolicitation := rfl

theorem IcmpType.from_u8_134 : IcmpType.from_u8 134 = some .RouterAdvertisement := rfl

/-- Decoding an encoded valid packet recovers it exactly. -/
theorem IcmpPacket.decode_encode_packet (p : IcmpPacket) (h : p.Valid) :
    IcmpPacket.decode p.encode = some (.ok p) := by
  rcases p with ⟨typ, code, checksum, content⟩
  obtain ⟨hcode, hck, hcontent⟩ := h
  cases typ with
  | RouterSolicitation =>
    cases content with
    | RouterSolicitation sol =>
      simp only [IcmpPacket.encode, IcmpType.to_u8, IcmpPacket.decode,
        List.cons_append, decodeU8_cons, IcmpType.from_u8_133,
        decodeU16_encode, hck,
        RouterSolicitation.decode_encode_sol sol hcontent]
    | RouterAdvertisement adv => exact absurd hcontent (by simp)
  | RouterAdvertisement =>
    cases content with
    | RouterSolicitation sol => exact absurd hcontent (by simp)
    | RouterAdvertisement adv =>
      simp only [IcmpPacket.encode, IcmpType.to_u8, IcmpPacket.decode,
        List.cons_append, decodeU8_cons, IcmpType.from_u8_134,
        decodeU16_encode, hck,
        RouterAdvertisement.decode_encode_ra adv hcontent]

/-- Consuming a run of encoded valid options at the head of the option
loop, for an arbitrary continuation. -/
theorem decodeOptions_encode_list_append (opts : List IcmpOption)
    (rest : List Nat) (h : ∀ o ∈ opts, o.Valid) :
    decodeOptions ((opts.map IcmpOption.encode).flatten ++ rest) =
      (decodeOptions rest).map (opts ++ ·) := by
  induction opts with
  | nil =>
    simp only [List.map_nil, List.flatten_nil, List.nil_append]
    cases decodeOptions rest <;> simp
  | cons o os ih =>
    simp only [List.map_cons, List.flatten_cons, List.append_assoc]
    rw [decodeOptions_encode_append o _ (h o (by simp)),
      ih (fun x hx => h x (by simp [hx]))]
    cases decodeOptions rest <;> simp

theorem flatten_len_16 (xs : List (List Nat)) (h : ∀ x ∈ xs, x.length = 16) :
    xs.flatten.length = 16 * xs.length := by
  induction xs with
  | nil => simp
  | cons a as_ ih =>
    have := h a (by simp)
    have := ih (fun x hx => h x (by simp [hx]))
    simp only [List.flatten_cons, List.length_append, List.length_cons]
    omega

theorem all_rdnss_prefixOptions (l : List (List Nat × Prefix)) (now : Nat) :
    (l.filterMap (prefixOption now)).all rdnssLifetimeIs3600 = true := by
  induction l with
  | nil => rfl
  | cons e es ih =>
    by_cases hc : (e.2.valid_lifetime.durationAt now).nanos = 0
    · simp only [List.filterMap_cons, prefixOption, if_pos hc]
      exact ih
    · simp only [List.filterMap_cons, prefixOption, if_neg hc, List.all_cons,
        ih, Bool.and_true]
      rfl

/-! ### Claims -/

/-- C2 (amended): when the shutdown signal fires, the biased select takes
the shutdown branch, one Router Advertisement is built with
RouterLifetime = 0 and sent to the all-nodes multicast address, and the
scheduler loop breaks.  So exactly one final RA is emitted (in particular
at most MAX_FINAL_RTR_ADVERTISEMENTS = 3); its options are built as on any
emission, so PrefixInformation options for still-valid prefixes are NOT
omitted. -/
theorem claim_C2_shutdown (maxI : Duration) (mac : LinkLayerAddress)
    (now : Nat) (st : State) :
    shutdownEmissions maxI mac now st =
      [(MULTICAST_ALL_NODES, buildRouterAdvertisement true maxI mac now st)] ∧
    (shutdownEmissions maxI mac now st).length ≤ MAX_FINAL_RTR_ADVERTISEMENTS ∧
    IcmpPacket.routerLifetimeOf (buildRouterAdvertisement true maxI mac now st) =
      some (Duration.fromSecs 0) := by
  refine ⟨rfl, by simp [shutdownEmissions, MAX_FINAL_RTR_ADVERTISEMENTS], ?_⟩
  simp [buildRouterAdvertisement, IcmpPacket.routerLifetimeOf]

/-- C2 counterexample: with one still-valid prefix in the state, the
shutdown emission does contain a PrefixInformation option, contrary to the
claim that the final RAs contain none. -/
theorem claim_C2_counterexample :
    (shutdownEmissions (Duration.fromSecs 600) ⟨[1, 2, 3, 4, 5, 6]⟩ 0
        c2State).all (fun e => e.2.hasPrefixInformation) = true ∧
    (shutdownEmissions (Duration.fromSecs 600) ⟨[1, 2, 3, 4, 5, 6]⟩ 0
        c2State).length = 1 := by
  decide

/-- C3: with max_rtr_adv_interval = 600 s and min_rtr_adv_interval = 700 s
the startup clamping leaves MinRtrAdvInterval at 700 s, violating the
claimed (and RFC-mandated, and source-commented) bound
MinRtrAdvInterval <= 0.75 x MaxRtrAdvInterval = 450 s: the source computes
the cap as max * 4 / 3 instead of max * 3 / 4. -/
theorem claim_C3_violation :
    clampMaxRtrAdvInterval 600 = Duration.fromSecs 600 ∧
    clampMinRtrAdvInterval 700 (clampMaxRtrAdvInterval 600) =
      Duration.fromSecs 700 ∧
    ¬ ((clampMinRtrAdvInterval 700 (clampMaxRtrAdvInterval 600)).nanos * 4 ≤
        (clampMaxRtrAdvInterval 600).nanos * 3) := by
  decide

/-- C4: Request::encode writes the RemovePrefix valid-lifetime Duration
seconds big-endian (put_u32 instead of put_u32_le): the encoded request
ends in the bytes 0,0,0,1 for 1 second, and decoding (which reads little
endian) returns 16777216 seconds instead of 1. -/
theorem claim_C4_violation :
    (Request.encode c4Request).drop 27 = [0, 0, 0, 1] ∧
    Request.decode (Request.encode c4Request) =
      .ok (.RemovePrefix
        { prefixAddr := List.replicate 16 0
          prefix_length := 64
          preferred_lifetime := .Duration (Duration.fromSecs 0)
          valid_lifetime := .Duration (Duration.fromSecs 16777216) }) ∧
    Request.decode (Request.encode c4Request) ≠ .ok c4Request := by
  decide

/-- C9 (amended): the AddPrefix and RemovePrefix arms of the connection
handler signal the change notification (notify_one) after the mutation and
before the Ok response; the AddDnsServer and RemoveDnsServer arms mutate
the state and respond without signalling. -/
theorem claim_C9_notify :
    (∀ (st : State) (p : Prefix),
      (applyRequest st (.AddPrefix p)).2 = [.Notify, .RespondOk]) ∧
    (∀ (st : State) (p : Prefix),
      (applyRequest st (.RemovePrefix p)).2 = [.Notify, .RespondOk]) ∧
    (∀ (st : State) (s : DnsServer),
      (applyRequest st (.AddDnsServer s)).2 = [.RespondOk]) ∧
    (∀ (st : State) (s : DnsServer),
      (applyRequest st (.RemoveDnsServer s)).2 = [.RespondOk]) :=
  ⟨fun _ _ => rfl, fun _ _ => rfl, fun _ _ => rfl, fun _ _ => rfl⟩

/-- C9 counterexample: an AddDnsServer request mutates the state but emits
no notification before the Ok response, contrary to the claim that every
state mutation is followed by the signal. -/
theorem claim_C9_counterexample :
    (applyRequest c9State c9Request).1.dns_servers ≠ c9State.dns_servers ∧
    ConnAction.Notify ∉ (applyRequest c9State c9Request).2 ∧
    (applyRequest c9State c9Request).2 = [ConnAction.RespondOk] := by
  decide

/-- C10: AddDnsServer stores only the address (the same state results from
any two lifetimes), the DNS set after the request is exactly the old set
with the address inserted, the reaper's retain pass never touches the DNS
set, and every RDNSS option the RA builder emits carries the fixed
lifetime 3600 s. -/
theorem claim_C10_dns :
    (∀ (st : State) (addr : List Nat) (l1 l2 : Lifetime),
      (applyRequest st (.AddDnsServer ⟨addr, l1⟩)).1 =
        (applyRequest st (.AddDnsServer ⟨addr, l2⟩)).1) ∧
    (∀ (st : State) (addr : List Nat) (l : Lifetime),
      (applyRequest st (.AddDnsServer ⟨addr, l⟩)).1.dns_servers =
        setInsert st.dns_servers addr) ∧
    (∀ (now : Nat) (st : State),
      (reaperRetain now st).dns_servers = st.dns_servers) ∧
    (∀ (sh : Bool) (maxI : Duration) (mac : LinkLayerAddress) (now : Nat)
        (st : State),
      (IcmpPacket.optionsOf (buildRouterAdvertisement sh maxI mac now st)).all
        rdnssLifetimeIs3600 = true) := by
  refine ⟨fun _ _ _ _ => rfl, fun _ _ _ => rfl, fun _ _ => rfl, ?_⟩
  intro sh maxI mac now st
  simp only [buildRouterAdvertisement, IcmpPacket.optionsOf, List.all_append]
  rw [Bool.and_eq_true]
  refine ⟨?_, all_rdnss_prefixOptions st.prefixes now⟩
  split <;> split <;>
    simp [rdnssLifetimeIs3600, List.all_append]

/-- C1 (amended): decode inverts encode for every packet that is valid in
the strengthened sense: byte-range fields, whole-second durations fitting
their wire width, optional RA timers absent or nonzero (a present zero
encodes as "unspecified" and decodes as absent), and RDNSS options with at
most 127 addresses (the u8 length byte overflows beyond that).  The result
is exact equality: the checksum is carried transparently and option order
is preserved. -/
theorem claim_C1_roundtrip (p : IcmpPacket) (h : p.Valid) :
    IcmpPacket.decode (IcmpPacket.encode p) = some (.ok p) :=
  IcmpPacket.decode_encode_packet p h

theorem claim_C1_roundtrip_witness :
    IcmpPacket.Valid c1WitnessPacket ∧
    IcmpPacket.decode (IcmpPacket.encode c1WitnessPacket) =
      some (.ok c1WitnessPacket) :=
  ⟨by decide, claim_C1_roundtrip c1WitnessPacket (by decide)⟩

/-- C1 counterexample: a RouterAdvertisement packet with
ReachableTime = Some(0 s) - all duration fields in range for their wire
width - decodes back with ReachableTime = None, so decode(encode(p)) = p
fails as stated (the difference is not in the checksum or in option
order). -/
theorem claim_C1_counterexample :
    IcmpPacket.decode (IcmpPacket.encode c1CounterPacket) =
      some (.ok c1CounterDecoded) ∧
    c1CounterDecoded ≠ c1CounterPacket ∧
    IcmpPacket.decode (IcmpPacket.encode c1CounterPacket) ≠
      some (.ok c1CounterPacket) := by
  decide

/-- C5 (amended): the NDP encoder truncates, it does not saturate: the
RouterLifetime wire field holds as_secs mod 2^16 and each u32 duration
field (RA timers, prefix valid and preferred lifetimes, RDNSS lifetime)
holds its seconds mod 2^32. -/
theorem claim_C5_truncation (ra : RouterAdvertisement)
    (pi : PrefixInformation) (r : RecursiveDnsServer) :
    ((RouterAdvertisement.encode ra).drop 2).take 2 =
      encodeU16 (ra.router_lifetime.asSecs % 65536) ∧
    ((RouterAdvertisement.encode ra).drop 4).take 4 =
      encodeU32 (timerSecs ra.reachable_timer) ∧
    ((RouterAdvertisement.encode ra).drop 8).take 4 =
      encodeU32 (timerSecs ra.retrans_timer) ∧
    ((IcmpOption.encode (.PrefixInformation pi)).drop 4).take 4 =
      encodeU32 (pi.valid_lifetime.asSecs % 4294967296) ∧
    ((IcmpOption.encode (.PrefixInformation pi)).drop 8).take 4 =
      encodeU32 (pi.preferred_lifetime.asSecs % 4294967296) ∧
    ((IcmpOption.encode (.RecursiveDnsServer r)).drop 4).take 4 =
      encodeU32 (r.lifetime.asSecs % 4294967296) := by
  refine ⟨?_, ?_, ?_, ?_, ?_, ?_⟩ <;>
    simp [RouterAdvertisement.encode, IcmpOption.encode, encodeU16, encodeU32]

/-- C5 counterexample: a RouterLifetime of 65536 s encodes as the wire
bytes 0,0 (truncation), not as the saturated 255,255. -/
theorem claim_C5_counterexample :
    ((RouterAdvertisement.encode c5Ra).drop 2).take 2 = [0, 0] ∧
    encodeU16 (min (Duration.asSecs c5Ra.router_lifetime) 65535) =
      [255, 255] ∧
    ((RouterAdvertisement.encode c5Ra).drop 2).take 2 ≠
      encodeU16 (min (Duration.asSecs c5Ra.router_lifetime) 65535) := by
  decide

/-- C6 (amended): inserting one option whose type code is recognised by
OptionCode::from_u8 as none - i.e. outside {1,2,3,4,5,25}, so excluding
the RedirectedHeader code 4, whose decode arm is an unimplemented panic -
with any length L in [1,31] and a full L*8-2 byte body between runs of
valid known options leaves the decoded option sequence unchanged. -/
theorem claim_C6_skip (opts1 opts2 : List IcmpOption) (code L : Nat)
    (payload : List Nat) (h1 : ∀ o ∈ opts1, o.Valid)
    (h2 : ∀ o ∈ opts2, o.Valid) (hcode : OptionCode.from_u8 code = none)
    (hL1 : 1 ≤ L) (hL2 : L ≤ 31) (hlen : payload.length = L * 8 - 2) :
    decodeOptions ((opts1.map IcmpOption.encode).flatten ++
        (code :: L :: payload) ++ (opts2.map IcmpOption.encode).flatten) =
      some (opts1 ++ opts2) := by
  rw [List.append_assoc, decodeOptions_encode_list_append opts1 _ h1]
  have hshape : (code :: L :: payload) ++ (opts2.map IcmpOption.encode).flatten =
      code :: L :: (payload ++ (opts2.map IcmpOption.encode).flatten) := by
    simp
  rw [hshape, decodeOptions_skip_unknown code L payload _ hcode hL1 hL2 hlen,
    decodeOptions_encode_list opts2 h2]
  rfl

theorem claim_C6_skip_witness :
    (∀ o ∈ [IcmpOption.Mtu 1500], o.Valid) ∧
    (∀ o ∈ [IcmpOption.Mtu 9000], o.Valid) ∧
    OptionCode.from_u8 7 = none ∧
    ([0, 0, 0, 0, 0, 0] : List Nat).length = 1 * 8 - 2 ∧
    decodeOptions (([IcmpOption.Mtu 1500].map IcmpOption.encode).flatten ++
        (7 :: 1 :: [0, 0, 0, 0, 0, 0]) ++
        ([IcmpOption.Mtu 9000].map IcmpOption.encode).flatten) =
      some ([IcmpOption.Mtu 1500] ++ [IcmpOption.Mtu 9000]) :=
  ⟨by decide, by decide, rfl, rfl,
    claim_C6_skip [IcmpOption.Mtu 1500] [IcmpOption.Mtu 9000] 7 1
      [0, 0, 0, 0, 0, 0] (by decide) (by decide) rfl (by decide) (by decide)
      rfl⟩

/-- C6 counterexample: type code 4 is outside {1,2,3,5,25} but is not
skipped: OptionCode::from_u8 recognises it as RedirectedHeader and the
decode arm is todo!(), a panic (modelled as none), so inserting it (with
L = 1 and a full 6-byte body) between two empty runs of known options
changes the decoded sequence from some [] to a panic. -/
theorem claim_C6_counterexample :
    decodeOptions ([] ++ (4 :: 1 :: [0, 0, 0, 0, 0, 0]) ++ []) = none ∧
    decodeOptions ([] ++ []) = some [] := by
  decide

/-- C7 (amended): for every option whose fixed-size fields have their Rust
lengths and whose RDNSS address count is at most 127, the encoding is a
multiple of 8 bytes long and its second byte is that length divided by 8.
Beyond 127 addresses the u8 length byte wraps and the property fails. -/
theorem claim_C7_option_footprint (opt : IcmpOption) (h : opt.LenWF) :
    (IcmpOption.encode opt).length % 8 = 0 ∧
    (IcmpOption.encode opt).get? 1 =
      some ((IcmpOption.encode opt).length / 8) := by
  cases opt with
  | SourceLinkLayerAddress a =>
    simp only [IcmpOption.LenWF] at h
    simp [IcmpOption.encode, h]
  | TargetLinkLayerAddress a =>
    simp only [IcmpOption.LenWF] at h
    simp [IcmpOption.encode, h]
  | PrefixInformation o =>
    simp only [IcmpOption.LenWF] at h
    simp [IcmpOption.encode, encodeU32, h]
  | Mtu m =>
    simp [IcmpOption.encode, encodeU32]
  | RecursiveDnsServer o =>
    obtain ⟨hn, hall⟩ := h
    have hfl := flatten_len_16 o.addrs hall
    have hlb : (1 + o.addrs.length % 256 * 2) % 256 =
        1 + 2 * o.addrs.length := by omega
    refine ⟨?_, ?_⟩ <;>
      · simp [IcmpOption.encode, encodeU32, hlb, hfl]
        omega

theorem claim_C7_option_footprint_witness :
    IcmpOption.LenWF
      (IcmpOption.RecursiveDnsServer ⟨Duration.fromSecs 3600,
        [List.replicate 16 7, List.replicate 16 9]⟩) ∧
    ((IcmpOption.encode (IcmpOption.RecursiveDnsServer ⟨Duration.fromSecs 3600,
        [List.replicate 16 7, List.replicate 16 9]⟩)).length % 8 = 0 ∧
      (IcmpOption.encode (IcmpOption.RecursiveDnsServer ⟨Duration.fromSecs 3600,
        [List.replicate 16 7, List.replicate 16 9]⟩)).get? 1 =
        some ((IcmpOption.encode
          (IcmpOption.RecursiveDnsServer ⟨Duration.fromSecs 3600,
            [List.replicate 16 7, List.replicate 16 9]⟩)).length / 8)) :=
  ⟨by decide, claim_C7_option_footprint _ (by decide)⟩

/-- C7 counterexample: an RDNSS option with 128 addresses encodes to 2056
bytes (a multiple of 8, length/8 = 257) but its second byte is 1: the u8
expression 1 + len*2 wraps modulo 256, so the second byte does not equal
the length divided by 8. -/
theorem claim_C7_counterexample :
    (IcmpOption.encode c7Option).length = 2056 ∧
    (IcmpOption.encode c7Option).get? 1 = some 1 ∧
    (IcmpOption.encode c7Option).get? 1 ≠
      some ((IcmpOption.encode c7Option).length / 8) := by
  have hall : ∀ x ∈ List.replicate 128 (List.replicate 16 (0 : Nat)),
      x.length = 16 := by
    intro x hx
    rw [List.eq_of_mem_replicate hx]
    simp
  have hfl := flatten_len_16 _ hall
  simp only [List.length_replicate] at hfl
  have hlen : (IcmpOption.encode c7Option).length = 2056 := by
    simp only [c7Option, IcmpOption.encode, List.length_cons,
      List.length_append, encodeU32, List.length_nil, hfl]
  have hget : (IcmpOption.encode c7Option).get? 1 = some 1 := by
    simp only [c7Option, IcmpOption.encode, List.get?, List.length_replicate]
  refine ⟨hlen, hget, ?_⟩
  rw [hget, hlen]
  decide

/-- C8 (amended): RouterAdvertisement::decode fails with Eof when the
12-byte fixed part is truncated; when the fixed part is present it
terminates and returns Ok - unless an option with type code 4
(RedirectedHeader) is reached, whose decode arm is an unimplemented panic.
Lenient receive holds: options decoded before a malformed option that
leaves insufficient bytes (here a PrefixInformation header with a 1-byte
body) are retained. -/
theorem claim_C8_robust :
    (∀ buf : List Nat, buf.length < 12 →
      RouterAdvertisement.decode buf = some (.error .Eof)) ∧
    (∀ buf : List Nat, 12 ≤ buf.length →
      RouterAdvertisement.decode buf = none ∨
      ∃ ra, RouterAdvertisement.decode buf = some (.ok ra)) ∧
    (∀ opts : List IcmpOption, (∀ o ∈ opts, o.Valid) →
      RouterAdvertisement.decode (List.replicate 12 0 ++
          ((opts.map IcmpOption.encode).flatten ++ [3, 4, 0])) =
        some (.ok
          { cur_hop_limit := 0, managed := false, other := false,
            router_lifetime := Duration.fromSecs 0, reachable_timer := none,
            retrans_timer := none, options := opts })) := by
  refine ⟨?_, ?_, ?_⟩
  · intro buf h
    rcases buf with _ | ⟨b0, _ | ⟨b1, _ | ⟨b2, _ | ⟨b3, _ | ⟨b4, _ | ⟨b5, _ | ⟨b6, _ | ⟨b7, _ | ⟨b8, _ | ⟨b9, _ | ⟨b10, t⟩⟩⟩⟩⟩⟩⟩⟩⟩⟩⟩
    case cons.cons.cons.cons.cons.cons.cons.cons.cons.cons.cons =>
      cases t with
      | nil => rfl
      | cons x t2 =>
        exfalso
        simp only [List.length_cons] at h
        omega
    all_goals rfl
  · intro buf h
    rcases buf with _ | ⟨b0, _ | ⟨b1, _ | ⟨b2, _ | ⟨b3, _ | ⟨b4, _ | ⟨b5, _ | ⟨b6, _ | ⟨b7, _ | ⟨b8, _ | ⟨b9, _ | ⟨b10, _ | ⟨b11, t⟩⟩⟩⟩⟩⟩⟩⟩⟩⟩⟩⟩
    case cons.cons.cons.cons.cons.cons.cons.cons.cons.cons.cons.cons =>
      simp only [RouterAdvertisement.decode, decodeU8_cons, decodeU16,
        decodeU32]
      rcases hdo : decodeOptions t with - | opts
      · exact Or.inl rfl
      · exact Or.inr ⟨_, rfl⟩
    all_goals (exfalso; simp only [List.length_cons, List.length_nil] at h; omega)
  · intro opts h
    have hrep : List.replicate 12 (0 : Nat) =
        [0, 0, 0, 0, 0, 0, 0, 0, 0, 0, 0, 0] := rfl
    have htail : decodeOptions [3, 4, 0] = some [] := by decide
    rw [hrep]
    simp only [List.cons_append, List.nil_append, RouterAdvertisement.decode,
      decodeU8_cons, decodeU16, decodeU32,
      decodeOptions_encode_list_append opts _ h, htail]
    simp

theorem claim_C8_robust_witness :
    RouterAdvertisement.decode (List.replicate 11 0) = some (.error .Eof) ∧
    (RouterAdvertisement.decode (List.replicate 12 0) = none ∨
      ∃ ra, RouterAdvertisement.decode (List.replicate 12 0) = some (.ok ra)) ∧
    RouterAdvertisement.decode (List.replicate 12 0 ++
        (([IcmpOption.Mtu 1500].map IcmpOption.encode).flatten ++ [3, 4, 0])) =
      some (.ok
        { cur_hop_limit := 0, managed := false, other := false,
          router_lifetime := Duration.fromSecs 0, reachable_timer := none,
          retrans_timer := none, options := [IcmpOption.Mtu 1500] }) :=
  ⟨claim_C8_robust.1 (List.replicate 11 0) (by decide),
   claim_C8_robust.2.1 (List.replicate 12 0) (by decide),
   claim_C8_robust.2.2 [IcmpOption.Mtu 1500] (by decide)⟩

/-- C8 counterexample: a buffer with the full fixed part followed by an
option of type code 4 does not return Ok: the RedirectedHeader decode arm
is an unimplemented panic (modelled as none). -/
theorem claim_C8_counterexample :
    RouterAdvertisement.decode
      (List.replicate 12 0 ++ [4, 1, 0, 0, 0, 0, 0, 0]) = none ∧
    (List.replicate 12 0 ++ [4, 1, 0, 0, 0, 0, 0, 0]).length ≥ 12 := by
  decide

end Rsadv
